import Mathlib

/-!
Shallow embedding of the Chronos scheduler core (backend/src/routes/schedule.ts,
backend/src/routes/scenarios.ts, and the analytics forecast route).

Conventions of the embedding:
* JavaScript `Date` values are modelled by `JDate`: an absolute month index
  (`ym = year * 12 + monthIndex`) plus a day of month.  `Date.setMonth` with a
  day that does not exist in the target month rolls over into the following
  month, exactly as in JavaScript.
* JavaScript numbers are modelled as exact rationals (`ℚ`); `Math.round` is
  floor of x + 1/2 for the non-negative values arising here.
* The Prisma store is a record of lists; `SERIAL` primary keys are modelled by
  an explicit `nextAssignmentId` counter, and the store-level constraints of
  the migration (unique `(carId, month)`, foreign keys `carId -> Car` and
  `shopId -> Shop`) are checked by `assignmentCreate`.
* `prisma.$transaction` is embedded as all-or-nothing: the route keeps the new
  store only when the transaction body succeeds, and keeps the original store
  when it throws.
* Fallible routes return `Except String`; the in-memory undo/redo stacks are
  mutated before the store operations, as in the source, so `undo`/`redo`
  return the (possibly partially mutated) state together with the outcome.
-/

namespace Chronos

/-- A JavaScript Date, reduced to the fields the scheduler reads: an absolute
month index `ym` (year * 12 + zero-based month) and a day of month. -/
structure JDate where
  ym : Nat
  day : Nat
deriving DecidableEq, Repr

/-- Gregorian leap-year rule, as implemented by JavaScript Date. -/
def isLeap (y : Nat) : Bool :=
  (y % 4 == 0 && y % 100 != 0) || y % 400 == 0

/-- Number of days in the month with absolute index `ym`. -/
def daysInMonth (ym : Nat) : Nat :=
  let m := ym % 12
  if m == 1 then (if isLeap (ym / 12) then 29 else 28)
  else if m == 3 || m == 5 || m == 8 || m == 10 then 30
  else 31

/-- JavaScript `d.setMonth(t)`: keep the day of month, rolling over into the
next month when the day does not exist there (e.g. Jan 31 set to February
becomes Mar 2/3). -/
def jsSetMonth (d : JDate) (target : Nat) : JDate :=
  if d.day ≤ daysInMonth target then ⟨target, d.day⟩
  else ⟨target + 1, d.day - daysInMonth target⟩

/-- Lexicographic comparison of dates, matching timestamp order. -/
def JDate.le (a b : JDate) : Bool :=
  a.ym < b.ym || (a.ym == b.ym && a.day ≤ b.day)

/-- JavaScript `Math.round` on the non-negative finite numbers used here. -/
def jsRound (q : ℚ) : ℤ :=
  Int.floor (q + 1/2)

/-- The two-decimal rounding `Math.round(x * 100) / 100` used by the routes. -/
def round2 (q : ℚ) : ℚ :=
  (jsRound (q * 100) : ℚ) / 100

/-- A row of the `Car` table, reduced to the fields the scheduler core reads
and writes. -/
structure Car where
  id : Nat
  status : String
deriving DecidableEq, Repr

/-- A row of the `Shop` table, reduced to the fields the scheduler core reads. -/
structure Shop where
  id : Nat
  name : String
  capacity : Nat
deriving DecidableEq, Repr

/-- A row of the `Assignment` table. -/
structure Assignment where
  id : Nat
  carId : Nat
  shopId : Nat
  month : JDate
deriving DecidableEq, Repr

/-- The Prisma store as seen by the scheduler core.  `nextAssignmentId` models
the `SERIAL` sequence of the `Assignment` table. -/
structure DB where
  cars : List Car
  shops : List Shop
  assignments : List Assignment
  nextAssignmentId : Nat
deriving DecidableEq, Repr

/-- Lookup `prisma.car.findUnique` by id. -/
def findCar (db : DB) (carId : Nat) : Option Car :=
  db.cars.find? (fun c => c.id == carId)

/-- Lookup `prisma.shop.findUnique` by id. -/
def findShop (db : DB) (shopId : Nat) : Option Shop :=
  db.shops.find? (fun s => s.id == shopId)

/-- Lookup `prisma.assignment.findUnique` on the `carId_month` unique key. -/
def findByCarMonth (db : DB) (carId : Nat) (month : JDate) : Option Assignment :=
  db.assignments.find? (fun a => a.carId == carId && a.month == month)

/-- Lookup `prisma.assignment.findUnique` by id. -/
def findAssignment (db : DB) (id : Nat) : Option Assignment :=
  db.assignments.find? (fun a => a.id == id)

/-- Count `prisma.assignment.count` over a `(shopId, month)` cell. -/
def countAssignments (db : DB) (shopId : Nat) (month : JDate) : Nat :=
  (db.assignments.filter (fun a => a.shopId == shopId && a.month == month)).length

/-- Count `prisma.assignment.count` over one car. -/
def countByCar (db : DB) (carId : Nat) : Nat :=
  (db.assignments.filter (fun a => a.carId == carId)).length

/-- Status write `prisma.car.update`, restricted to the
status writes the core performs.  (Wherever the core calls it, the car's
existence is already guaranteed.) -/
def setCarStatus (db : DB) (carId : Nat) (status : String) : DB :=
  { db with cars := db.cars.map (fun c => if c.id == carId then { c with status := status } else c) }

/-- Insert `prisma.assignment.create`: enforces the migration's unique index on
`(carId, month)` and the foreign keys to `Car` and `Shop`; the new row gets
the next `SERIAL` id. -/
def assignmentCreate (db : DB) (carId shopId : Nat) (month : JDate) :
    Except String (DB × Assignment) :=
  if (findCar db carId).isNone then .error "FK violation: carId"
  else if (findShop db shopId).isNone then .error "FK violation: shopId"
  else if (findByCarMonth db carId month).isSome then .error "Unique constraint: carId_month"
  else
    let a : Assignment := ⟨db.nextAssignmentId, carId, shopId, month⟩
    .ok ({ db with assignments := db.assignments ++ [a],
                   nextAssignmentId := db.nextAssignmentId + 1 }, a)

/-- Delete `prisma.assignment.delete` by id: throws when the row is
missing. -/
def assignmentDelete (db : DB) (id : Nat) : Except String DB :=
  if (findAssignment db id).isNone then .error "Record to delete does not exist"
  else .ok { db with assignments := db.assignments.filter (fun a => !(a.id == id)) }

/-- The tag of an entry of the in-memory history stacks (`'update'` is never
pushed by any route and is omitted). -/
inductive ActionType
  | create
  | delete
deriving DecidableEq, Repr

/-- An entry of the in-memory undo/redo stacks: the action tag plus the full
`Assignment` snapshot stored in `action.data.assignment`. -/
structure HistoryAction where
  type : ActionType
  assignment : Assignment
deriving DecidableEq, Repr

/-- The state the schedule routes operate on: the Prisma store plus the two
process-wide in-memory stacks.  Stacks are newest-first: `push` is cons,
`pop` is head, and `shift` (evicting the oldest) is `dropLast`. -/
structure ScheduleState where
  db : DB
  undoStack : List HistoryAction
  redoStack : List HistoryAction
deriving DecidableEq, Repr

/-- Constant `MAX_HISTORY` of schedule.ts. -/
def MAX_HISTORY : Nat := 50

/-- Helper `addToHistory` of schedule.ts: push onto the undo stack, evict the oldest
entry when the depth exceeds `MAX_HISTORY`, and clear the redo stack. -/
def addToHistory (st : ScheduleState) (action : HistoryAction) : ScheduleState :=
  let pushed := action :: st.undoStack
  { st with undoStack := if pushed.length > MAX_HISTORY then pushed.dropLast else pushed,
            redoStack := [] }

/-- Result payload of a successful `POST /api/schedule/assign`: the created
row and whether the over-capacity warning string was attached. -/
structure AssignResult where
  assignment : Assignment
  warning : Bool
deriving DecidableEq, Repr

/-- Route `POST /api/schedule/assign`.  Mirrors the source order: falsy-argument
check (a zero id is falsy in JavaScript), car lookup, shop lookup, duplicate
`(carId, month)` check, capacity count *before* insertion, insertion, car
status update, history push. -/
def assign (st : ScheduleState) (carId shopId : Nat) (month : JDate) :
    Except String (ScheduleState × AssignResult) :=
  if carId == 0 || shopId == 0 then .error "carId, shopId, and month are required"
  else
    match findCar st.db carId with
    | none => .error "Car not found"
    | some _ =>
      match findShop st.db shopId with
      | none => .error "Shop not found"
      | some shop =>
        if (findByCarMonth st.db carId month).isSome then
          .error "Car already assigned for this month"
        else
          let monthAssignments := countAssignments st.db shopId month
          let isOverCapacity := monthAssignments ≥ shop.capacity
          let a : Assignment := ⟨st.db.nextAssignmentId, carId, shopId, month⟩
          let db1 : DB := { st.db with assignments := st.db.assignments ++ [a],
                                       nextAssignmentId := st.db.nextAssignmentId + 1 }
          let db2 := setCarStatus db1 carId "scheduled"
          .ok (addToHistory { st with db := db2 } ⟨.create, a⟩, ⟨a, isOverCapacity⟩)

/-- Route `DELETE /api/schedule/unassign/:id`.  The history entry is pushed before
the deletion, as in the source; the car reverts to `unscheduled` only when it
has no remaining assignment in any month. -/
def unassign (st : ScheduleState) (assignmentId : Nat) : Except String ScheduleState :=
  match findAssignment st.db assignmentId with
  | none => .error "Assignment not found"
  | some a =>
    let st1 := addToHistory st ⟨.delete, a⟩
    let db1 : DB := { st1.db with assignments := st1.db.assignments.filter (fun x => !(x.id == assignmentId)) }
    let db2 := if countByCar db1 a.carId == 0 then setCarStatus db1 a.carId "unscheduled" else db1
    .ok { st1 with db := db2 }

/-- Route `POST /api/schedule/undo`.  The stacks are popped/pushed before the store
operations (they are in-memory and are not rolled back on a store error), so
the state component is returned even when the outcome is an error. -/
def undo (st : ScheduleState) : ScheduleState × Except String Unit :=
  match st.undoStack with
  | [] => (st, .error "Nothing to undo")
  | action :: rest =>
    let st1 : ScheduleState := { st with undoStack := rest, redoStack := action :: st.redoStack }
    match action.type with
    | .create =>
      match assignmentDelete st1.db action.assignment.id with
      | .error e => (st1, .error e)
      | .ok db1 =>
        let db2 := if countByCar db1 action.assignment.carId == 0 then
            setCarStatus db1 action.assignment.carId "unscheduled" else db1
        ({ st1 with db := db2 }, .ok ())
    | .delete =>
      match assignmentCreate st1.db action.assignment.carId action.assignment.shopId action.assignment.month with
      | .error e => (st1, .error e)
      | .ok (db1, _) => ({ st1 with db := setCarStatus db1 action.assignment.carId "scheduled" }, .ok ())

/-- Route `POST /api/schedule/redo`.  Note the source pushes back onto the undo
stack without a `MAX_HISTORY` check, and a redone `create` action re-inserts
the row with a fresh `SERIAL` id. -/
def redo (st : ScheduleState) : ScheduleState × Except String Unit :=
  match st.redoStack with
  | [] => (st, .error "Nothing to redo")
  | action :: rest =>
    let st1 : ScheduleState := { st with redoStack := rest, undoStack := action :: st.undoStack }
    match action.type with
    | .create =>
      match assignmentCreate st1.db action.assignment.carId action.assignment.shopId action.assignment.month with
      | .error e => (st1, .error e)
      | .ok (db1, _) => ({ st1 with db := setCarStatus db1 action.assignment.carId "scheduled" }, .ok ())
    | .delete =>
      match assignmentDelete st1.db action.assignment.id with
      | .error e => (st1, .error e)
      | .ok db1 =>
        let db2 := if countByCar db1 action.assignment.carId == 0 then
            setCarStatus db1 action.assignment.carId "unscheduled" else db1
        ({ st1 with db := db2 }, .ok ())

/-- One user-visible mutation of the schedule routes, for reachability
arguments about the history stacks. -/
inductive Op
  | assign (carId shopId : Nat) (month : JDate)
  | unassign (id : Nat)
  | undo
  | redo
deriving DecidableEq, Repr

/-- The state left behind by one request: a failed `assign`/`unassign` leaves
the state untouched (the error is thrown before any mutation persists), while
`undo`/`redo` keep their stack mutations even when the store operation fails. -/
def step (st : ScheduleState) : Op → ScheduleState
  | .assign c s m =>
    match assign st c s m with
    | .ok (st1, _) => st1
    | .error _ => st
  | .unassign i =>
    match unassign st i with
    | .ok st1 => st1
    | .error _ => st
  | .undo => (undo st).1
  | .redo => (redo st).1

/-- Run a sequence of requests in arrival order. -/
def run (st : ScheduleState) : List Op → ScheduleState
  | [] => st
  | op :: rest => run (step st op) rest

/-- One proposed tuple of a scenario (`{ carId, shopId, month }`).  The month
string of the request is represented by the date it denotes; `evaluate` keys
on its year-month (`substring(0, 7)`), `apply` uses the full date. -/
structure ScenarioAssignment where
  carId : Nat
  shopId : Nat
  month : JDate
deriving DecidableEq, Repr

/-- Insert a committed assignment into the per-month tally
`(monthKey, current, scenario)`.  A JavaScript `Map` keeps keys in first
insertion order, so an existing key is updated in place and a new key is
appended. -/
def bumpCurrent (data : List (Nat × Nat × Nat)) (ym : Nat) : List (Nat × Nat × Nat) :=
  match data with
  | [] => [(ym, 1, 0)]
  | e :: rest => if e.1 == ym then (e.1, e.2.1 + 1, e.2.2) :: rest else e :: bumpCurrent rest ym

/-- Insert a proposed (scenario) assignment into the per-month tally. -/
def bumpScenario (data : List (Nat × Nat × Nat)) (ym : Nat) : List (Nat × Nat × Nat) :=
  match data with
  | [] => [(ym, 0, 1)]
  | e :: rest => if e.1 == ym then (e.1, e.2.1, e.2.2 + 1) :: rest else e :: bumpScenario rest ym

/-- The `monthlyData` map built for one shop by `POST /api/scenarios/evaluate`:
first all committed assignments of the shop, then all proposed ones, each
keyed by year-month. -/
def monthlyTally (db : DB) (proposed : List ScenarioAssignment) (shopId : Nat) :
    List (Nat × Nat × Nat) :=
  let afterCurrent := (db.assignments.filter (fun a => a.shopId == shopId)).foldl
    (fun d a => bumpCurrent d a.month.ym) []
  (proposed.filter (fun a => a.shopId == shopId)).foldl
    (fun d a => bumpScenario d a.month.ym) afterCurrent

/-- The loop over `monthlyData.entries()`: maximal total, maximal overload and
the first month (in map order) whose total is under capacity. -/
def scanTally (capacity : Nat) (data : List (Nat × Nat × Nat)) : Nat × Nat × Option Nat :=
  data.foldl
    (fun acc e =>
      let total := e.2.1 + e.2.2
      let maxTotal := if total > acc.1 then total else acc.1
      let maxOverload := if total > capacity then
          (if total - capacity > acc.2.1 then total - capacity else acc.2.1) else acc.2.1
      let earliest := if total < capacity && acc.2.2.isNone then some e.1 else acc.2.2
      (maxTotal, maxOverload, earliest))
    (0, 0, none)

/-- Status classification of `POST /api/scenarios/evaluate`: `red` when the
maximal total strictly exceeds capacity, else `yellow` from 80% utilization,
else `green`. -/
inductive Status
  | green
  | yellow
  | red
deriving DecidableEq, Repr

/-- The status computed from the unrounded utilization, as in the source. -/
def statusOf (maxTotal capacity : Nat) : Status :=
  if maxTotal > capacity then .red
  else if (maxTotal : ℚ) / (capacity : ℚ) * 100 ≥ 80 then .yellow
  else .green

/-- One element of the `fitResults` array of `POST /api/scenarios/evaluate`.
`earliestSlot` is a year-month key; after the next-month fallback it is never
null, so it is a plain `Nat` here. -/
structure FitResult where
  shopId : Nat
  shopName : String
  capacity : Nat
  currentAssigned : Nat
  scenarioAssigned : Nat
  totalAssigned : Nat
  utilizationPercent : ℚ
  status : Status
  overload : Nat
  earliestSlot : Nat
deriving DecidableEq, Repr

/-- The per-shop body of the `evaluate` loop.  `now` is the wall clock read by
`new Date()` in the earliest-slot fallback. -/
def evalShop (db : DB) (proposed : List ScenarioAssignment) (now : JDate) (shop : Shop) :
    FitResult :=
  let scan := scanTally shop.capacity (monthlyTally db proposed shop.id)
  { shopId := shop.id
    shopName := shop.name
    capacity := shop.capacity
    currentAssigned := (db.assignments.filter (fun a => a.shopId == shop.id)).length
    scenarioAssigned := (proposed.filter (fun a => a.shopId == shop.id)).length
    totalAssigned := scan.1
    utilizationPercent := round2 ((scan.1 : ℚ) / (shop.capacity : ℚ) * 100)
    status := statusOf scan.1 shop.capacity
    overload := scan.2.1
    earliestSlot :=
      match scan.2.2 with
      | some m => m
      | none => (jsSetMonth now (now.ym + 1)).ym }

/-- The response body of `POST /api/scenarios/evaluate`. -/
structure EvalResult where
  fitScore : ℚ
  totalOverload : Nat
  shops : List FitResult
deriving DecidableEq, Repr

/-- Route `POST /api/scenarios/evaluate`: one `FitResult` per shop of the store, the
aggregate fit score (share of green shops, 0 without shops) and the summed
overload. -/
def evaluate (db : DB) (proposed : List ScenarioAssignment) (now : JDate) : EvalResult :=
  let fitResults := db.shops.map (evalShop db proposed now)
  let greenCount := (fitResults.filter (fun r => r.status == Status.green)).length
  { fitScore := round2 (if db.shops.length > 0 then
        ((greenCount : ℚ) / (db.shops.length : ℚ)) * 100 else 0)
    totalOverload := fitResults.foldl (fun s r => s + r.overload) 0
    shops := fitResults }

/-- The transaction body of `POST /api/scenarios/:id/apply`: for each proposed
tuple, skip it when an assignment with the same `(carId, month)` already
exists, otherwise insert it and mark the car `scheduled`.  Any store error
aborts the whole loop. -/
def applyLoop (db : DB) (tuples : List ScenarioAssignment) (created : List Assignment) :
    Except String (DB × List Assignment) :=
  match tuples with
  | [] => .ok (db, created)
  | t :: rest =>
    match findByCarMonth db t.carId t.month with
    | some _ => applyLoop db rest created
    | none =>
      match assignmentCreate db t.carId t.shopId t.month with
      | .error e => .error e
      | .ok (db1, a) => applyLoop (setCarStatus db1 t.carId "scheduled") rest (created ++ [a])

/-- The transaction of `POST /api/scenarios/:id/apply` applied to a scenario's
proposed list. -/
def applyScenario (db : DB) (tuples : List ScenarioAssignment) :
    Except String (DB × List Assignment) :=
  applyLoop db tuples []

/-- The `apply` route around the transaction: `prisma.$transaction` commits
the new store only when the body succeeds and rolls everything back when it
throws. -/
def applyRoute (db : DB) (tuples : List ScenarioAssignment) :
    DB × Except String (List Assignment) :=
  match applyScenario db tuples with
  | .ok (db1, created) => (db1, .ok created)
  | .error e => (db, .error e)

/-- One cell of the projection array of `GET /api/analytics/forecast`. -/
structure ForecastCell where
  month : Nat
  projected : ℤ
  capacity : Nat
  utilizationPercent : ℚ
  status : String
deriving DecidableEq, Repr

/-- One shop's entry of the forecast response. -/
structure ForecastEntry where
  shopId : Nat
  shopName : String
  avgMonthlyAssignments : ℚ
  forecast : List ForecastCell
deriving DecidableEq, Repr

/-- The cut-off date `sixMonthsAgo` of the forecast route:
`new Date()` followed by `setMonth(getMonth() - 6)`. -/
def sixMonthsAgo (now : JDate) : JDate :=
  jsSetMonth now (now.ym - 6)

/-- The historical rows the forecast route attributes to one shop: all
assignments dated on or after the cut-off — there is no upper bound in the
source, so future months count as history. -/
def shopHist (db : DB) (now : JDate) (shopId : Nat) : List Assignment :=
  (db.assignments.filter (fun a => JDate.le (sixMonthsAgo now) a.month)).filter
    (fun a => a.shopId == shopId)

/-- The forecast route's average for one shop: rows of `shopHist` divided by
the number of distinct year-months among them; 0 without history. -/
def shopWindowAvg (db : DB) (now : JDate) (shopId : Nat) : ℚ :=
  if ((shopHist db now shopId).map (fun a => a.month.ym)).dedup.length > 0 then
    ((shopHist db now shopId).length : ℚ) /
      ((((shopHist db now shopId).map (fun a => a.month.ym)).dedup.length : Nat) : ℚ)
  else 0

/-- One projected cell: the rounded average, its utilization, and the
`over`/`near`/`good` classification of the source. -/
def forecastCell (shop : Shop) (avg : ℚ) (month : Nat) : ForecastCell :=
  let projected := jsRound avg
  { month := month
    projected := projected
    capacity := shop.capacity
    utilizationPercent := round2 ((projected : ℚ) / (shop.capacity : ℚ) * 100)
    status := if projected > (shop.capacity : ℤ) then "over"
      else if (projected : ℚ) ≥ (shop.capacity : ℚ) * (8/10) then "near"
      else "good" }

/-- The projection loop: a single mutable `Date` starts at `now` and is
advanced by `setMonth(getMonth() + 1)` before each cell is emitted. -/
def forecastCells (shop : Shop) (avg : ℚ) : Nat → JDate → List ForecastCell
  | 0, _ => []
  | n + 1, current =>
    let next := jsSetMonth current (current.ym + 1)
    forecastCell shop avg next.ym :: forecastCells shop avg n next

/-- One shop's forecast entry: the (two-decimal rounded) average and `months`
projected cells. -/
def forecastShop (db : DB) (now : JDate) (months : Nat) (shop : Shop) : ForecastEntry :=
  { shopId := shop.id
    shopName := shop.name
    avgMonthlyAssignments := round2 (shopWindowAvg db now shop.id)
    forecast := forecastCells shop (shopWindowAvg db now shop.id) months now }

/-- Route `GET /api/analytics/forecast`: one entry per shop. -/
def forecast (db : DB) (now : JDate) (months : Nat) : List ForecastEntry :=
  db.shops.map (forecastShop db now months)

/-- Modelled from the spec: the Forecast Projector section describes the
average over "a trailing window of the last 6 periods", i.e. a window that
ends at the current date; this definition follows that wording (the source
instead has no upper bound).  It exists only to be compared with
`shopWindowAvg`. -/
def specTrailingHist (db : DB) (now : JDate) (shopId : Nat) : List Assignment :=
  (db.assignments.filter
      (fun a => JDate.le (sixMonthsAgo now) a.month && JDate.le a.month now)).filter
    (fun a => a.shopId == shopId)

/-- Modelled from the spec: the average over the trailing window given by
`specTrailingHist`, with the same distinct-active-months denominator. -/
def specTrailingAverage (db : DB) (now : JDate) (shopId : Nat) : ℚ :=
  if ((specTrailingHist db now shopId).map (fun a => a.month.ym)).dedup.length > 0 then
    ((specTrailingHist db now shopId).length : ℚ) /
      ((((specTrailingHist db now shopId).map (fun a => a.month.ym)).dedup.length : Nat) : ℚ)
  else 0

section FieldLemmas

/-- Field view of `evalShop`: the reported total is the scan's maximum. -/
theorem evalShop_totalAssigned (db : DB) (p : List ScenarioAssignment) (now : JDate) (shop : Shop) :
    (evalShop db p now shop).totalAssigned = (scanTally shop.capacity (monthlyTally db p shop.id)).1 := rfl

/-- Field view of `evalShop`: the reported utilization. -/
theorem evalShop_utilization (db : DB) (p : List ScenarioAssignment) (now : JDate) (shop : Shop) :
    (evalShop db p now shop).utilizationPercent =
      round2 (((scanTally shop.capacity (monthlyTally db p shop.id)).1 : ℚ) / (shop.capacity : ℚ) * 100) := rfl

/-- Field view of `evalShop`: the reported status. -/
theorem evalShop_status (db : DB) (p : List ScenarioAssignment) (now : JDate) (shop : Shop) :
    (evalShop db p now shop).status = statusOf (scanTally shop.capacity (monthlyTally db p shop.id)).1 shop.capacity := rfl

/-- Field view of `evalShop`: the reported maximal overload. -/
theorem evalShop_overload (db : DB) (p : List ScenarioAssignment) (now : JDate) (shop : Shop) :
    (evalShop db p now shop).overload = (scanTally shop.capacity (monthlyTally db p shop.id)).2.1 := rfl

/-- Two-decimal rounding of a whole number is the identity. -/
theorem round2_natCast (n : Nat) : round2 (n : ℚ) = (n : ℚ) := by
  have h : jsRound ((n : ℚ) * 100) = (n : ℤ) * 100 := by
    unfold jsRound
    rw [Int.floor_eq_iff]
    constructor
    · push_cast; nlinarith [Nat.cast_nonneg (α := ℚ) n]
    · push_cast; nlinarith [Nat.cast_nonneg (α := ℚ) n]
  unfold round2
  rw [h]
  push_cast
  ring

end FieldLemmas

section C1

/-- The store of the spec's boundary example: one shop of capacity 50 with 40
committed assignments in month 600 (all in distinct cars, as required by the
uniqueness constraint). -/
def c1db : DB :=
  { cars := [], shops := [⟨1, "S", 50⟩],
    assignments := (List.range 40).map (fun i => ⟨i + 1, i + 1, 1, ⟨600, 1⟩⟩),
    nextAssignmentId := 41 }

/-- Ten further proposed assignments in the same month. -/
def c1prop : List ScenarioAssignment :=
  (List.range 10).map (fun i => ⟨100 + i, 1, ⟨600, 1⟩⟩)

/-- C1 counterexample: at capacity 50 with 40 committed plus 10 proposed
assignments in one month, `evaluate` does report `maxTotal = 50` and
`utilizationPercent = 100`, but the status it assigns is not `green`: a
utilization of 100 falls in the `>= 80` branch. -/
theorem C1_claim_false :
    ((evaluate c1db c1prop ⟨600, 1⟩).shops.map (fun r => r.totalAssigned) = [50]) ∧
    ((evaluate c1db c1prop ⟨600, 1⟩).shops.map (fun r => r.utilizationPercent) = [100]) ∧
    ¬ ((evaluate c1db c1prop ⟨600, 1⟩).shops.map (fun r => r.status) = [Status.green]) := by
  have hshops : (evaluate c1db c1prop ⟨600, 1⟩).shops = [evalShop c1db c1prop ⟨600, 1⟩ ⟨1, "S", 50⟩] := rfl
  have hscan : (scanTally (50 : Nat) (monthlyTally c1db c1prop 1)).1 = 50 := by decide
  refine ⟨?_, ?_, ?_⟩
  · rw [hshops]
    simp only [List.map_cons, List.map_nil, evalShop_totalAssigned]
    exact congrArg (fun x => [x]) hscan
  · rw [hshops]
    simp only [List.map_cons, List.map_nil, evalShop_utilization]
    have : ((scanTally (50 : Nat) (monthlyTally c1db c1prop 1)).1 : ℚ) / (50 : ℚ) * 100 = 100 := by
      rw [hscan]; norm_num
    rw [show ((⟨1, "S", 50⟩ : Shop).capacity : ℚ) = (50 : ℚ) from rfl, this,
      show (100 : ℚ) = ((100 : Nat) : ℚ) by norm_num, round2_natCast]
  · rw [hshops]
    intro h
    simp only [List.map_cons, List.map_nil, evalShop_status, List.cons.injEq, and_true] at h
    rw [hscan] at h
    unfold statusOf at h
    rw [if_neg (by norm_num), if_pos (by norm_num)] at h
    exact Status.noConfusion h

/-- C1 amended: capacity 50 with 40 committed and 10 proposed assignments in
the same month yields `maxTotal = 50` and `utilizationPercent = 100`, and the
status is `yellow`: not `red`, because the red rule is strictly greater-than,
and not `green`, because the utilization reaches the 80 percent threshold. -/
theorem C1_boundary_status :
    ((evaluate c1db c1prop ⟨600, 1⟩).shops.map (fun r => r.totalAssigned) = [50]) ∧
    ((evaluate c1db c1prop ⟨600, 1⟩).shops.map (fun r => r.utilizationPercent) = [100]) ∧
    ((evaluate c1db c1prop ⟨600, 1⟩).shops.map (fun r => r.status) = [Status.yellow]) := by
  have hshops : (evaluate c1db c1prop ⟨600, 1⟩).shops = [evalShop c1db c1prop ⟨600, 1⟩ ⟨1, "S", 50⟩] := rfl
  have hscan : (scanTally (50 : Nat) (monthlyTally c1db c1prop 1)).1 = 50 := by decide
  refine ⟨?_, ?_, ?_⟩
  · rw [hshops]
    simp only [List.map_cons, List.map_nil, evalShop_totalAssigned]
    exact congrArg (fun x => [x]) hscan
  · rw [hshops]
    simp only [List.map_cons, List.map_nil, evalShop_utilization]
    have : ((scanTally (50 : Nat) (monthlyTally c1db c1prop 1)).1 : ℚ) / (50 : ℚ) * 100 = 100 := by
      rw [hscan]; norm_num
    rw [show ((⟨1, "S", 50⟩ : Shop).capacity : ℚ) = (50 : ℚ) from rfl, this,
      show (100 : ℚ) = ((100 : Nat) : ℚ) by norm_num, round2_natCast]
  · rw [hshops]
    simp only [List.map_cons, List.map_nil, evalShop_status]
    rw [hscan]
    unfold statusOf
    rw [if_neg (by norm_num), if_pos (by norm_num)]

end C1

section C2

/-- Whether the `evaluate` loop finds an under-capacity month for a shop, so
that the `new Date()` fallback for `earliestSlot` is not taken. -/
def shopHasSlot (db : DB) (proposed : List ScenarioAssignment) (shop : Shop) : Bool :=
  (scanTally shop.capacity (monthlyTally db proposed shop.id)).2.2.isSome

/-- A store whose single shop is exactly full in its only touched month, so
`earliestSlot` falls back to the month after the current date. -/
def c2db : DB :=
  { cars := [], shops := [⟨1, "S", 1⟩],
    assignments := [⟨1, 1, 1, ⟨600, 1⟩⟩],
    nextAssignmentId := 2 }

/-- C2 counterexample: with identical committed state and an identical (empty)
proposed list, two `evaluate` calls made under different wall-clock dates
return different `earliestSlot` values — the fallback uses `new Date()`, so
the output is not a function of `(committed, proposed)` alone. -/
theorem C2_claim_false :
    ((evaluate c2db [] ⟨600, 1⟩).shops.map (fun r => r.earliestSlot)) ≠
    ((evaluate c2db [] ⟨601, 1⟩).shops.map (fun r => r.earliestSlot)) := by
  decide

/-- C2 amended: `evaluate` is a pure function of the committed state, the
proposed list and the current date; whenever every shop has some touched
month below capacity (so the next-calendar-month fallback fires for no shop),
the output does not depend on the current date at all. -/
theorem C2_deterministic_without_fallback (db : DB) (proposed : List ScenarioAssignment)
    (now1 now2 : JDate) (h : ∀ shop ∈ db.shops, shopHasSlot db proposed shop = true) :
    evaluate db proposed now1 = evaluate db proposed now2 := by
  have hmap : db.shops.map (evalShop db proposed now1) = db.shops.map (evalShop db proposed now2) := by
    apply List.map_congr_left
    intro shop hs
    have hslot := h shop hs
    unfold shopHasSlot at hslot
    obtain ⟨m, hm⟩ := Option.isSome_iff_exists.mp hslot
    simp only [evalShop, hm]
  simp only [evaluate]
  rw [hmap]

/-- Witness for C2 amended: a concrete store with spare capacity evaluated
under two different dates gives identical results. -/
theorem C2_deterministic_without_fallback_witness :
    evaluate ⟨[], [⟨1, "S", 2⟩], [⟨1, 1, 1, ⟨600, 1⟩⟩], 2⟩ [] ⟨600, 1⟩ =
    evaluate ⟨[], [⟨1, "S", 2⟩], [⟨1, 1, 1, ⟨600, 1⟩⟩], 2⟩ [] ⟨777, 7⟩ :=
  C2_deterministic_without_fallback _ [] _ _ (by decide)

end C2

section StateLemmas

/-- The history push does not touch the store. -/
theorem addToHistory_db (st : ScheduleState) (action : HistoryAction) :
    (addToHistory st action).db = st.db := rfl

/-- A car-status write does not touch the assignments. -/
theorem setCarStatus_assignments (db : DB) (carId : Nat) (status : String) :
    (setCarStatus db carId status).assignments = db.assignments := rfl

/-- A car-status write does not touch the shops. -/
theorem setCarStatus_shops (db : DB) (carId : Nat) (status : String) :
    (setCarStatus db carId status).shops = db.shops := rfl

/-- A car-status write does not touch the id sequence. -/
theorem setCarStatus_nextId (db : DB) (carId : Nat) (status : String) :
    (setCarStatus db carId status).nextAssignmentId = db.nextAssignmentId := rfl

/-- Looking up the updated car after a status write returns it with the new
status. -/
theorem find?_map_update (l : List Car) (cid : Nat) (status : String) :
    (l.map (fun c => if c.id == cid then { c with status := status } else c)).find?
        (fun c => c.id == cid)
      = (l.find? (fun c => c.id == cid)).map (fun c => { c with status := status }) := by
  induction l with
  | nil => rfl
  | cons c rest ih =>
    simp only [List.map_cons]
    by_cases hc : c.id = cid
    · rw [List.find?_cons_of_pos _ (by simp [hc]), List.find?_cons_of_pos _ (by simp [hc])]
      simp [hc]
    · rw [List.find?_cons_of_neg _ (by simp [hc]), List.find?_cons_of_neg _ (by simp [hc]), ih]

/-- Looking up with `findCar` after `setCarStatus` on the same id. -/
theorem findCar_setCarStatus (db : DB) (cid : Nat) (status : String) :
    findCar (setCarStatus db cid status) cid
      = (findCar db cid).map (fun c => { c with status := status }) := by
  unfold findCar setCarStatus
  exact find?_map_update db.cars cid status

/-- Appending a row matching a `(shopId, month)` count increments it. -/
theorem countAssignments_append_match (l : List Assignment) (a : Assignment)
    (shopId : Nat) (month : JDate) (hs : a.shopId = shopId) (hm : a.month = month) :
    ((l ++ [a]).filter (fun x => x.shopId == shopId && x.month == month)).length
      = (l.filter (fun x => x.shopId == shopId && x.month == month)).length + 1 := by
  rw [List.filter_append, List.length_append]
  simp [List.filter, hs, hm]

end StateLemmas

section C3

/-- C3: whenever the car and shop exist (ids are nonzero, as `SERIAL` keys
are) and no assignment exists for the same `(carId, month)`, `assign`
succeeds — capacity never blocks it — unconditionally sets the car's status
to `scheduled`, and attaches the capacity warning exactly when the count for
`(shopId, month)` after the insertion strictly exceeds the shop's capacity. -/
theorem C3_assign_never_blocked (st : ScheduleState) (carId shopId : Nat) (month : JDate)
    (car : Car) (shop : Shop)
    (hc0 : carId ≠ 0) (hs0 : shopId ≠ 0)
    (hcar : findCar st.db carId = some car)
    (hshop : findShop st.db shopId = some shop)
    (hdup : findByCarMonth st.db carId month = none) :
    ∃ st1 res, assign st carId shopId month = .ok (st1, res) ∧
      findCar st1.db carId = some { car with status := "scheduled" } ∧
      (res.warning = true ↔ countAssignments st1.db shopId month > shop.capacity) := by
  have hzc : (carId == 0) = false := beq_eq_false_iff_ne.mpr hc0
  have hzs : (shopId == 0) = false := beq_eq_false_iff_ne.mpr hs0
  unfold assign
  rw [hzc, hzs]
  simp only [Bool.or_self, Bool.false_eq_true, if_false, hcar, hshop, hdup, Option.isSome_none]
  refine ⟨_, _, rfl, ?_, ?_⟩
  · rw [addToHistory_db, findCar_setCarStatus]
    have h2 : findCar { st.db with
        assignments := st.db.assignments ++ [⟨st.db.nextAssignmentId, carId, shopId, month⟩],
        nextAssignmentId := st.db.nextAssignmentId + 1 } carId = some car := hcar
    rw [h2]
    rfl
  · rw [addToHistory_db]
    unfold countAssignments
    rw [setCarStatus_assignments]
    rw [show ({ st.db with
        assignments := st.db.assignments ++ [⟨st.db.nextAssignmentId, carId, shopId, month⟩],
        nextAssignmentId := st.db.nextAssignmentId + 1 } : DB).assignments
      = st.db.assignments ++ [⟨st.db.nextAssignmentId, carId, shopId, month⟩] from rfl]
    rw [countAssignments_append_match st.db.assignments _ shopId month rfl rfl]
    simp only [countAssignments, decide_eq_true_eq]
    omega

/-- Witness for C3 at a concrete store: one unscheduled car, one shop of
capacity 1, empty schedule. -/
theorem C3_assign_never_blocked_witness :
    ∃ st1 res,
      assign ⟨⟨[⟨1, "unscheduled"⟩], [⟨7, "S", 1⟩], [], 1⟩, [], []⟩ 1 7 ⟨600, 1⟩ = .ok (st1, res) ∧
      findCar st1.db 1 = some ⟨1, "scheduled"⟩ ∧
      (res.warning = true ↔ countAssignments st1.db 7 ⟨600, 1⟩ > 1) :=
  C3_assign_never_blocked ⟨⟨[⟨1, "unscheduled"⟩], [⟨7, "S", 1⟩], [], 1⟩, [], []⟩ 1 7 ⟨600, 1⟩
    ⟨1, "unscheduled"⟩ ⟨7, "S", 1⟩ (by decide) (by decide) rfl rfl rfl

end C3

section StackLemmas

/-- The history push clears the redo stack. -/
theorem addToHistory_redoStack (st : ScheduleState) (a : HistoryAction) :
    (addToHistory st a).redoStack = [] := rfl

/-- Depth of the undo stack after a history push: one more, capped by
eviction at `MAX_HISTORY`. -/
theorem addToHistory_undoStack_length (st : ScheduleState) (a : HistoryAction) :
    (addToHistory st a).undoStack.length =
      if st.undoStack.length + 1 > MAX_HISTORY then st.undoStack.length
      else st.undoStack.length + 1 := by
  unfold addToHistory
  dsimp only
  split <;> rename_i hcond
  · rw [if_pos (by simpa using hcond)]
    simp [List.length_dropLast]
  · rw [if_neg (by simpa using hcond)]
    simp

/-- Stack effect of `undo`, independent of the store outcome: pop the undo
stack onto the redo stack when possible. -/
theorem undo_stacks (st : ScheduleState) :
    ((undo st).1.undoStack, (undo st).1.redoStack) =
      (match st.undoStack with
        | [] => (st.undoStack, st.redoStack)
        | a :: rest => (rest, a :: st.redoStack)) := by
  obtain ⟨db, u, r⟩ := st
  cases u with
  | nil => rfl
  | cons a rest =>
    obtain ⟨t, asg⟩ := a
    cases t <;> unfold undo <;> dsimp only <;> split <;> rfl

/-- Stack effect of `redo`: pop the redo stack back onto the undo stack (with
no `MAX_HISTORY` check, as in the source). -/
theorem redo_stacks (st : ScheduleState) :
    ((redo st).1.undoStack, (redo st).1.redoStack) =
      (match st.redoStack with
        | [] => (st.undoStack, st.redoStack)
        | a :: rest => (a :: st.undoStack, rest)) := by
  obtain ⟨db, u, r⟩ := st
  cases r with
  | nil => rfl
  | cons a rest =>
    obtain ⟨t, asg⟩ := a
    cases t <;> unfold redo <;> dsimp only <;> split <;> rfl

/-- A successful `assign` leaves an empty redo stack and a pushed, capped
undo stack. -/
theorem assign_ok_stacks (st : ScheduleState) (c s : Nat) (m : JDate)
    (st1 : ScheduleState) (r : AssignResult) (h : assign st c s m = .ok (st1, r)) :
    st1.redoStack = [] ∧
    st1.undoStack.length =
      (if st.undoStack.length + 1 > MAX_HISTORY then st.undoStack.length
       else st.undoStack.length + 1) := by
  unfold assign at h
  split at h
  · exact absurd h (by simp)
  · split at h
    · exact absurd h (by simp)
    · split at h
      · exact absurd h (by simp)
      · split at h
        · exact absurd h (by simp)
        · simp only [Except.ok.injEq, Prod.mk.injEq] at h
          obtain ⟨h1, h2⟩ := h
          rw [← h1]
          exact ⟨rfl, addToHistory_undoStack_length _ _⟩

/-- A successful `unassign` leaves an empty redo stack and a pushed, capped
undo stack. -/
theorem unassign_ok_stacks (st : ScheduleState) (i : Nat)
    (st1 : ScheduleState) (h : unassign st i = .ok st1) :
    st1.redoStack = [] ∧
    st1.undoStack.length =
      (if st.undoStack.length + 1 > MAX_HISTORY then st.undoStack.length
       else st.undoStack.length + 1) := by
  unfold unassign at h
  split at h
  · exact absurd h (by simp)
  · simp only [Except.ok.injEq] at h
    rw [← h]
    exact ⟨rfl, addToHistory_undoStack_length _ _⟩

/-- Calling `redo` on an empty redo stack fails with the EmptyHistory error and
changes nothing. -/
theorem redo_of_empty (st : ScheduleState) (h : st.redoStack = []) :
    redo st = (st, .error "Nothing to redo") := by
  obtain ⟨db, u, r⟩ := st
  dsimp only at h
  subst h
  rfl

/-- Any single request preserves the bound on the combined stack depth. -/
theorem step_sum_le (st : ScheduleState) (op : Op)
    (h : st.undoStack.length + st.redoStack.length ≤ MAX_HISTORY) :
    (step st op).undoStack.length + (step st op).redoStack.length ≤ MAX_HISTORY := by
  cases op with
  | assign c s m =>
    dsimp only [step]
    cases ha : assign st c s m with
    | error e => simpa using h
    | ok p =>
      obtain ⟨st1, r⟩ := p
      obtain ⟨h1, h2⟩ := assign_ok_stacks st c s m st1 r ha
      simp only [h1, h2, List.length_nil, Nat.add_zero]
      split <;> omega
  | unassign i =>
    dsimp only [step]
    cases hu : unassign st i with
    | error e => simpa using h
    | ok st1 =>
      obtain ⟨h1, h2⟩ := unassign_ok_stacks st i st1 hu
      simp only [h1, h2, List.length_nil, Nat.add_zero]
      split <;> omega
  | undo =>
    have h1 := congrArg Prod.fst (undo_stacks st)
    have h2 := congrArg Prod.snd (undo_stacks st)
    dsimp only [step]
    cases hu : st.undoStack with
    | nil =>
      simp only [hu] at h1 h2
      simp only [h1, h2, List.length_nil]
      have hlen : st.undoStack.length = 0 := by rw [hu]; rfl
      omega
    | cons a rest =>
      simp only [hu] at h1 h2
      simp only [h1, h2, List.length_cons]
      have hlen : st.undoStack.length = rest.length + 1 := by rw [hu]; rfl
      omega
  | redo =>
    have h1 := congrArg Prod.fst (redo_stacks st)
    have h2 := congrArg Prod.snd (redo_stacks st)
    dsimp only [step]
    cases hr : st.redoStack with
    | nil =>
      simp only [hr] at h1 h2
      simp only [h1, h2, List.length_nil]
      have hlen : st.redoStack.length = 0 := by rw [hr]; rfl
      omega
    | cons a rest =>
      simp only [hr] at h1 h2
      simp only [h1, h2, List.length_cons]
      have hlen : st.redoStack.length = rest.length + 1 := by rw [hr]; rfl
      omega

/-- The combined stack-depth bound is preserved by whole request sequences. -/
theorem run_sum_le (ops : List Op) (st : ScheduleState)
    (h : st.undoStack.length + st.redoStack.length ≤ MAX_HISTORY) :
    (run st ops).undoStack.length + (run st ops).redoStack.length ≤ MAX_HISTORY := by
  induction ops generalizing st with
  | nil => exact h
  | cons op rest ih => exact ih (step st op) (step_sum_le st op h)

end StackLemmas

section C7

/-- Boot state for the 51-assign experiment: 51 unscheduled cars, one shop,
empty stacks, empty schedule. -/
def c7init : ScheduleState :=
  ⟨⟨(List.range 51).map (fun i => ⟨i + 1, "unscheduled"⟩), [⟨1, "S", 1⟩], [], 1⟩, [], []⟩

/-- The 51 sequential `assign` requests for the 51 distinct cars into the same
shop and month. -/
def c7ops : List Op :=
  (List.range 51).map (fun i => Op.assign (i + 1) 1 ⟨600, 1⟩)

set_option maxRecDepth 100000 in
/-- C7: from any state reachable from process start (where both in-memory
stacks begin empty, so their combined depth is at most `MAX_HISTORY`), the
undo stack never exceeds 50 entries; and after 51 sequential successful
`assign` calls (all 51 rows are inserted) its depth is exactly 50 and the
`create` action recorded by the first call — the assignment with id 1 — has
been evicted. -/
theorem C7_history_cap (st : ScheduleState) (ops : List Op)
    (h : st.undoStack.length + st.redoStack.length ≤ MAX_HISTORY) :
    (run st ops).undoStack.length ≤ MAX_HISTORY ∧
    ((run c7init c7ops).undoStack.length = 50 ∧
     (run c7init c7ops).db.assignments.length = 51 ∧
     (⟨.create, ⟨1, 1, 1, ⟨600, 1⟩⟩⟩ : HistoryAction) ∉ (run c7init c7ops).undoStack) := by
  refine ⟨?_, ?_, ?_, ?_⟩
  · have := run_sum_le ops st h
    omega
  · decide
  · decide
  · decide

set_option maxRecDepth 100000 in
/-- Witness for C7 at the concrete boot state and 51-assign sequence. -/
theorem C7_history_cap_witness :
    (run c7init c7ops).undoStack.length ≤ MAX_HISTORY ∧
    ((run c7init c7ops).undoStack.length = 50 ∧
     (run c7init c7ops).db.assignments.length = 51 ∧
     (⟨.create, ⟨1, 1, 1, ⟨600, 1⟩⟩⟩ : HistoryAction) ∉ (run c7init c7ops).undoStack) :=
  C7_history_cap c7init c7ops (by decide)

end C7

section C8

/-- C8: from any state with a non-empty redo stack (for instance right after
an `undo`), every successful `assign` or `unassign` empties the redo stack,
so an immediately following `redo` fails with the EmptyHistory error; `undo`
itself never clears the redo stack — it only grows it. -/
theorem C8_mutations_clear_redo (st : ScheduleState) (h : st.redoStack ≠ []) :
    (∀ c s m st1 r, assign st c s m = .ok (st1, r) →
       st1.redoStack = [] ∧ redo st1 = (st1, .error "Nothing to redo")) ∧
    (∀ i st1, unassign st i = .ok st1 →
       st1.redoStack = [] ∧ redo st1 = (st1, .error "Nothing to redo")) ∧
    (st.redoStack.length ≤ (undo st).1.redoStack.length ∧ (undo st).1.redoStack ≠ []) := by
  refine ⟨?_, ?_, ?_⟩
  · intro c s m st1 r ha
    have hempty := (assign_ok_stacks st c s m st1 r ha).1
    exact ⟨hempty, redo_of_empty st1 hempty⟩
  · intro i st1 hu
    have hempty := (unassign_ok_stacks st i st1 hu).1
    exact ⟨hempty, redo_of_empty st1 hempty⟩
  · have h2 := congrArg Prod.snd (undo_stacks st)
    cases hu : st.undoStack with
    | nil =>
      simp only [hu] at h2
      rw [h2]
      exact ⟨Nat.le_refl _, h⟩
    | cons a rest =>
      simp only [hu] at h2
      rw [h2]
      exact ⟨by simp, by simp⟩

/-- Witness for C8: a state whose redo stack holds one entry; the successful
assign of car 1 to shop 7 empties it and makes `redo` fail. -/
theorem C8_mutations_clear_redo_witness :
    (∀ c s m st1 r,
       assign ⟨⟨[⟨1, "unscheduled"⟩], [⟨7, "S", 1⟩], [], 1⟩, [], [⟨.create, ⟨9, 1, 7, ⟨600, 1⟩⟩⟩]⟩
           c s m = .ok (st1, r) →
       st1.redoStack = [] ∧ redo st1 = (st1, .error "Nothing to redo")) ∧
    (∀ i st1,
       unassign ⟨⟨[⟨1, "unscheduled"⟩], [⟨7, "S", 1⟩], [], 1⟩, [], [⟨.create, ⟨9, 1, 7, ⟨600, 1⟩⟩⟩]⟩
           i = .ok st1 →
       st1.redoStack = [] ∧ redo st1 = (st1, .error "Nothing to redo")) ∧
    ((⟨⟨[⟨1, "unscheduled"⟩], [⟨7, "S", 1⟩], [], 1⟩, [], [⟨.create, ⟨9, 1, 7, ⟨600, 1⟩⟩⟩]⟩ :
        ScheduleState).redoStack.length ≤
       (undo ⟨⟨[⟨1, "unscheduled"⟩], [⟨7, "S", 1⟩], [], 1⟩, [], [⟨.create, ⟨9, 1, 7, ⟨600, 1⟩⟩⟩]⟩).1.redoStack.length ∧
     (undo ⟨⟨[⟨1, "unscheduled"⟩], [⟨7, "S", 1⟩], [], 1⟩, [], [⟨.create, ⟨9, 1, 7, ⟨600, 1⟩⟩⟩]⟩).1.redoStack ≠ []) :=
  C8_mutations_clear_redo
    ⟨⟨[⟨1, "unscheduled"⟩], [⟨7, "S", 1⟩], [], 1⟩, [], [⟨.create, ⟨9, 1, 7, ⟨600, 1⟩⟩⟩]⟩
    (by decide)

end C8

section C4Lemmas

/-- Two stores with the same cars agree on car lookups. -/
theorem findCar_eq_of_cars (db1 db2 : DB) (c : Nat) (h : db1.cars = db2.cars) :
    findCar db1 c = findCar db2 c := by
  unfold findCar; rw [h]

/-- The history push leaves the pushed action on top even when the oldest
entry is evicted. -/
theorem addToHistory_undoStack_cons (st : ScheduleState) (a : HistoryAction) :
    ∃ tail, (addToHistory st a).undoStack = a :: tail := by
  unfold addToHistory
  dsimp only
  split
  · rename_i hc
    cases hu : st.undoStack with
    | nil => rw [hu] at hc; simp [MAX_HISTORY] at hc
    | cons b u2 =>
      exact ⟨(b :: u2).dropLast, by simp⟩
  · exact ⟨st.undoStack, rfl⟩

/-- Evaluation of `undo` when the top of the undo stack is a `create` action
whose row deletion succeeds. -/
theorem undo_create_ok (st : ScheduleState) (asg : Assignment) (tail : List HistoryAction)
    (hu : st.undoStack = ⟨.create, asg⟩ :: tail)
    (db1 : DB) (hdel : assignmentDelete st.db asg.id = .ok db1) :
    undo st = ({ db := if countByCar db1 asg.carId == 0 then
                   setCarStatus db1 asg.carId "unscheduled" else db1,
                 undoStack := tail,
                 redoStack := ⟨.create, asg⟩ :: st.redoStack }, .ok ()) := by
  obtain ⟨db, u, r⟩ := st
  dsimp only at hu hdel
  subst hu
  unfold undo
  dsimp only
  rw [hdel]

/-- Evaluation of `redo` when the top of the redo stack is a `create` action
whose re-insertion succeeds. -/
theorem redo_create_ok (st : ScheduleState) (asg : Assignment) (tail : List HistoryAction)
    (hr : st.redoStack = ⟨.create, asg⟩ :: tail)
    (db1 : DB) (a1 : Assignment)
    (hcreate : assignmentCreate st.db asg.carId asg.shopId asg.month = .ok (db1, a1)) :
    redo st = ({ db := setCarStatus db1 asg.carId "scheduled",
                 undoStack := ⟨.create, asg⟩ :: st.undoStack,
                 redoStack := tail }, .ok ()) := by
  obtain ⟨db, u, r⟩ := st
  dsimp only at hr hcreate
  subst hr
  unfold redo
  dsimp only
  rw [hcreate]

/-- Successful evaluation of `assignmentCreate`: both foreign keys resolve
and the `(carId, month)` slot is free, so the row is appended under the next
`SERIAL` id. -/
theorem assignmentCreate_spec (db : DB) (c s : Nat) (m : JDate) (x : Car) (y : Shop)
    (hc : findCar db c = some x) (hs : findShop db s = some y)
    (hdup : findByCarMonth db c m = none) :
    assignmentCreate db c s m =
      .ok ({ db with assignments := db.assignments ++ [⟨db.nextAssignmentId, c, s, m⟩],
                     nextAssignmentId := db.nextAssignmentId + 1 },
           ⟨db.nextAssignmentId, c, s, m⟩) := by
  unfold assignmentCreate
  rw [hc, hs, hdup]
  rfl

end C4Lemmas

section C4

/-- C4 amended: for an assignment just created by `assign`, `undo` succeeds,
deletes exactly that row and reverts the car to `unscheduled` precisely when
it has no remaining assignment; a following `redo` succeeds and re-creates an
assignment with the same car, shop and month and the `scheduled` status — but
under a fresh `SERIAL` id, so the exact prior Assignment is not restored and
the store differs from its pre-undo state (the round trip holds only up to
assignment identity). -/
theorem C4_undo_redo (st : ScheduleState) (carId shopId : Nat) (month : JDate)
    (car : Car) (shop : Shop)
    (hc0 : carId ≠ 0) (hs0 : shopId ≠ 0)
    (hcar : findCar st.db carId = some car)
    (hshop : findShop st.db shopId = some shop)
    (hdup : findByCarMonth st.db carId month = none)
    (hid : ∀ x ∈ st.db.assignments, x.id < st.db.nextAssignmentId) :
    ∃ st1 res, assign st carId shopId month = .ok (st1, res) ∧
      res.assignment.id = st.db.nextAssignmentId ∧
      (undo st1).2 = .ok () ∧
      (undo st1).1.db.assignments = st.db.assignments ∧
      findCar (undo st1).1.db carId =
        some { car with status :=
          if (countByCar st.db carId = 0) then "unscheduled" else "scheduled" } ∧
      (redo (undo st1).1).2 = .ok () ∧
      (redo (undo st1).1).1.db.assignments =
        st.db.assignments ++ [⟨st.db.nextAssignmentId + 1, carId, shopId, month⟩] ∧
      findCar (redo (undo st1).1).1.db carId = some { car with status := "scheduled" } ∧
      res.assignment ∉ (redo (undo st1).1).1.db.assignments ∧
      (redo (undo st1).1).1.db ≠ st1.db := by
  obtain ⟨⟨cars, shops, A, n0⟩, u, r⟩ := st
  dsimp only at hcar hshop hdup hid ⊢
  have hzc : (carId == 0) = false := beq_eq_false_iff_ne.mpr hc0
  have hzs : (shopId == 0) = false := beq_eq_false_iff_ne.mpr hs0
  -- the state after the assign
  have hassign : assign ⟨⟨cars, shops, A, n0⟩, u, r⟩ carId shopId month =
      .ok (addToHistory
             ⟨⟨cars.map (fun c => if c.id == carId then { c with status := "scheduled" } else c),
               shops, A ++ [⟨n0, carId, shopId, month⟩], n0 + 1⟩, u, r⟩
             ⟨.create, ⟨n0, carId, shopId, month⟩⟩,
           ⟨⟨n0, carId, shopId, month⟩,
            decide (countAssignments ⟨cars, shops, A, n0⟩ shopId month ≥ shop.capacity)⟩) := by
    unfold assign
    rw [hzc, hzs]
    simp only [Bool.or_self, Bool.false_eq_true, if_false, hcar, hshop, hdup, Option.isSome_none]
    rfl
  refine ⟨_, _, hassign, rfl, ?_⟩
  obtain ⟨tail, htail⟩ := addToHistory_undoStack_cons
    ⟨⟨cars.map (fun c => if c.id == carId then { c with status := "scheduled" } else c),
      shops, A ++ [⟨n0, carId, shopId, month⟩], n0 + 1⟩, u, r⟩
    ⟨.create, ⟨n0, carId, shopId, month⟩⟩
  -- deleting the created row gives back the original assignment list
  have hfindA : findAssignment
      ⟨cars.map (fun c => if c.id == carId then { c with status := "scheduled" } else c),
        shops, A ++ [⟨n0, carId, shopId, month⟩], n0 + 1⟩ n0
      = some ⟨n0, carId, shopId, month⟩ := by
    unfold findAssignment
    show (A ++ [(⟨n0, carId, shopId, month⟩ : Assignment)]).find? (fun a => a.id == n0)
      = some ⟨n0, carId, shopId, month⟩
    rw [List.find?_append]
    have hnone : A.find? (fun a => a.id == n0) = none :=
      List.find?_eq_none.mpr (fun x hx => by simpa using Nat.ne_of_lt (hid x hx))
    rw [hnone]
    simp
  have hfilter : (A ++ [(⟨n0, carId, shopId, month⟩ : Assignment)]).filter
      (fun a => !(a.id == n0)) = A := by
    rw [List.filter_append]
    have h1 : A.filter (fun a => !(a.id == n0)) = A :=
      List.filter_eq_self.mpr (fun x hx => by simpa using Nat.ne_of_lt (hid x hx))
    have h2 : [(⟨n0, carId, shopId, month⟩ : Assignment)].filter (fun a => !(a.id == n0)) = [] := by
      simp
    rw [h1, h2, List.append_nil]
  have hdel : assignmentDelete
      ⟨cars.map (fun c => if c.id == carId then { c with status := "scheduled" } else c),
        shops, A ++ [⟨n0, carId, shopId, month⟩], n0 + 1⟩ n0
      = .ok ⟨cars.map (fun c => if c.id == carId then { c with status := "scheduled" } else c),
             shops, A, n0 + 1⟩ := by
    unfold assignmentDelete
    rw [hfindA]
    simp only [Option.isNone_some, Bool.false_eq_true, if_false]
    rw [hfilter]
  have hundo := undo_create_ok
    (addToHistory
      ⟨⟨cars.map (fun c => if c.id == carId then { c with status := "scheduled" } else c),
        shops, A ++ [(⟨n0, carId, shopId, month⟩ : Assignment)], n0 + 1⟩, u, r⟩
      ⟨.create, ⟨n0, carId, shopId, month⟩⟩)
    ⟨n0, carId, shopId, month⟩ tail htail
    ⟨cars.map (fun c => if c.id == carId then { c with status := "scheduled" } else c),
      shops, A, n0 + 1⟩ hdel
  -- normalize the redo stack and the if-condition in the undo result
  have hundo2 : undo (addToHistory
      ⟨⟨cars.map (fun c => if c.id == carId then { c with status := "scheduled" } else c),
        shops, A ++ [⟨n0, carId, shopId, month⟩], n0 + 1⟩, u, r⟩
      ⟨.create, ⟨n0, carId, shopId, month⟩⟩) =
      (⟨if countByCar ⟨cars, shops, A, n0⟩ carId == 0 then
          setCarStatus ⟨cars.map (fun c => if c.id == carId then { c with status := "scheduled" } else c),
            shops, A, n0 + 1⟩ carId "unscheduled"
        else ⟨cars.map (fun c => if c.id == carId then { c with status := "scheduled" } else c),
            shops, A, n0 + 1⟩,
        tail, [⟨.create, ⟨n0, carId, shopId, month⟩⟩]⟩, .ok ()) := hundo
  have hmapcar : (cars.map (fun c => if c.id == carId then { c with status := "scheduled" } else c)).find?
      (fun c => c.id == carId) = some { car with status := "scheduled" } := by
    rw [find?_map_update cars carId "scheduled"]
    rw [show cars.find? (fun c => c.id == carId) = some car from hcar]
    rfl
  by_cases hcnt : countByCar ⟨cars, shops, A, n0⟩ carId = 0
  · -- the car has no remaining assignment: status reverts to unscheduled
    have hundo3 : undo (addToHistory
        ⟨⟨cars.map (fun c => if c.id == carId then { c with status := "scheduled" } else c),
          shops, A ++ [(⟨n0, carId, shopId, month⟩ : Assignment)], n0 + 1⟩, u, r⟩
        ⟨.create, ⟨n0, carId, shopId, month⟩⟩) =
        (⟨⟨(cars.map (fun c => if c.id == carId then { c with status := "scheduled" } else c)).map
              (fun c => if c.id == carId then { c with status := "unscheduled" } else c),
            shops, A, n0 + 1⟩,
          tail, [⟨.create, ⟨n0, carId, shopId, month⟩⟩]⟩, .ok ()) := by
      rw [hundo2, hcnt]
      rfl
    have hfindU : findCar
        ⟨(cars.map (fun c => if c.id == carId then { c with status := "scheduled" } else c)).map
            (fun c => if c.id == carId then { c with status := "unscheduled" } else c),
          shops, A, n0 + 1⟩ carId = some { car with status := "unscheduled" } := by
      unfold findCar
      dsimp only
      rw [find?_map_update, hmapcar]
      rfl
    have hcreate : assignmentCreate
        ⟨(cars.map (fun c => if c.id == carId then { c with status := "scheduled" } else c)).map
            (fun c => if c.id == carId then { c with status := "unscheduled" } else c),
          shops, A, n0 + 1⟩ carId shopId month =
        .ok (⟨(cars.map (fun c => if c.id == carId then { c with status := "scheduled" } else c)).map
              (fun c => if c.id == carId then { c with status := "unscheduled" } else c),
            shops, A ++ [(⟨n0 + 1, carId, shopId, month⟩ : Assignment)], n0 + 2⟩,
          ⟨n0 + 1, carId, shopId, month⟩) := by
      have hsU : findShop ⟨(cars.map (fun c => if c.id == carId then { c with status := "scheduled" } else c)).map
            (fun c => if c.id == carId then { c with status := "unscheduled" } else c),
          shops, A, n0 + 1⟩ shopId = some shop := hshop
      have hdU : findByCarMonth ⟨(cars.map (fun c => if c.id == carId then { c with status := "scheduled" } else c)).map
            (fun c => if c.id == carId then { c with status := "unscheduled" } else c),
          shops, A, n0 + 1⟩ carId month = none := hdup
      exact assignmentCreate_spec _ carId shopId month _ shop hfindU hsU hdU
    have hredo := redo_create_ok
      ⟨⟨(cars.map (fun c => if c.id == carId then { c with status := "scheduled" } else c)).map
            (fun c => if c.id == carId then { c with status := "unscheduled" } else c),
          shops, A, n0 + 1⟩,
        tail, [⟨.create, ⟨n0, carId, shopId, month⟩⟩]⟩
      ⟨n0, carId, shopId, month⟩ [] rfl
      ⟨(cars.map (fun c => if c.id == carId then { c with status := "scheduled" } else c)).map
            (fun c => if c.id == carId then { c with status := "unscheduled" } else c),
          shops, A ++ [(⟨n0 + 1, carId, shopId, month⟩ : Assignment)], n0 + 2⟩
      ⟨n0 + 1, carId, shopId, month⟩ hcreate
    rw [hundo3]
    dsimp only
    rw [hredo]
    dsimp only
    refine ⟨rfl, rfl, ?_, rfl, rfl, ?_, ?_, ?_⟩
    · rw [hcnt]
      simp only [if_pos rfl]
      exact hfindU
    · rw [findCar_setCarStatus]
      rw [findCar_eq_of_cars
        ⟨(cars.map (fun c => if c.id == carId then { c with status := "scheduled" } else c)).map
              (fun c => if c.id == carId then { c with status := "unscheduled" } else c),
            shops, A ++ [(⟨n0 + 1, carId, shopId, month⟩ : Assignment)], n0 + 2⟩
        ⟨(cars.map (fun c => if c.id == carId then { c with status := "scheduled" } else c)).map
              (fun c => if c.id == carId then { c with status := "unscheduled" } else c),
            shops, A, n0 + 1⟩ carId rfl]
      rw [hfindU]
      rfl
    · show (⟨n0, carId, shopId, month⟩ : Assignment) ∉
        A ++ [(⟨n0 + 1, carId, shopId, month⟩ : Assignment)]
      intro hmem
      rcases List.mem_append.mp hmem with hmem | hmem
      · have := hid _ hmem
        simp at this
      · simp only [List.mem_singleton, Assignment.mk.injEq] at hmem
        omega
    · intro heq
      have h2 : A ++ [(⟨n0 + 1, carId, shopId, month⟩ : Assignment)] =
          A ++ [(⟨n0, carId, shopId, month⟩ : Assignment)] := congrArg DB.assignments heq
      simp only [List.append_cancel_left_eq, List.cons.injEq, Assignment.mk.injEq] at h2
      omega
  · -- the car still has other assignments: status stays scheduled
    have hbeq : (countByCar ⟨cars, shops, A, n0⟩ carId == 0) = false :=
      beq_eq_false_iff_ne.mpr hcnt
    have hundo3 : undo (addToHistory
        ⟨⟨cars.map (fun c => if c.id == carId then { c with status := "scheduled" } else c),
          shops, A ++ [(⟨n0, carId, shopId, month⟩ : Assignment)], n0 + 1⟩, u, r⟩
        ⟨.create, ⟨n0, carId, shopId, month⟩⟩) =
        (⟨⟨cars.map (fun c => if c.id == carId then { c with status := "scheduled" } else c),
            shops, A, n0 + 1⟩,
          tail, [⟨.create, ⟨n0, carId, shopId, month⟩⟩]⟩, .ok ()) := by
      rw [hundo2, hbeq]
      rfl
    have hfindU : findCar
        ⟨cars.map (fun c => if c.id == carId then { c with status := "scheduled" } else c),
          shops, A, n0 + 1⟩ carId = some { car with status := "scheduled" } := hmapcar
    have hcreate : assignmentCreate
        ⟨cars.map (fun c => if c.id == carId then { c with status := "scheduled" } else c),
          shops, A, n0 + 1⟩ carId shopId month =
        .ok (⟨cars.map (fun c => if c.id == carId then { c with status := "scheduled" } else c),
            shops, A ++ [(⟨n0 + 1, carId, shopId, month⟩ : Assignment)], n0 + 2⟩,
          ⟨n0 + 1, carId, shopId, month⟩) := by
      have hsU : findShop ⟨cars.map (fun c => if c.id == carId then { c with status := "scheduled" } else c),
          shops, A, n0 + 1⟩ shopId = some shop := hshop
      have hdU : findByCarMonth ⟨cars.map (fun c => if c.id == carId then { c with status := "scheduled" } else c),
          shops, A, n0 + 1⟩ carId month = none := hdup
      exact assignmentCreate_spec _ carId shopId month _ shop hfindU hsU hdU
    have hredo := redo_create_ok
      ⟨⟨cars.map (fun c => if c.id == carId then { c with status := "scheduled" } else c),
          shops, A, n0 + 1⟩,
        tail, [⟨.create, ⟨n0, carId, shopId, month⟩⟩]⟩
      ⟨n0, carId, shopId, month⟩ [] rfl
      ⟨cars.map (fun c => if c.id == carId then { c with status := "scheduled" } else c),
          shops, A ++ [(⟨n0 + 1, carId, shopId, month⟩ : Assignment)], n0 + 2⟩
      ⟨n0 + 1, carId, shopId, month⟩ hcreate
    rw [hundo3]
    dsimp only
    rw [hredo]
    dsimp only
    refine ⟨rfl, rfl, ?_, rfl, rfl, ?_, ?_, ?_⟩
    · rw [if_neg hcnt]
      exact hfindU
    · rw [findCar_setCarStatus]
      rw [findCar_eq_of_cars
        ⟨cars.map (fun c => if c.id == carId then { c with status := "scheduled" } else c),
            shops, A ++ [(⟨n0 + 1, carId, shopId, month⟩ : Assignment)], n0 + 2⟩
        ⟨cars.map (fun c => if c.id == carId then { c with status := "scheduled" } else c),
            shops, A, n0 + 1⟩ carId rfl]
      rw [hfindU]
      rfl
    · show (⟨n0, carId, shopId, month⟩ : Assignment) ∉
        A ++ [(⟨n0 + 1, carId, shopId, month⟩ : Assignment)]
      intro hmem
      rcases List.mem_append.mp hmem with hmem | hmem
      · have := hid _ hmem
        simp at this
      · simp only [List.mem_singleton, Assignment.mk.injEq] at hmem
        omega
    · intro heq
      have h2 : A ++ [(⟨n0 + 1, carId, shopId, month⟩ : Assignment)] =
          A ++ [(⟨n0, carId, shopId, month⟩ : Assignment)] := congrArg DB.assignments heq
      simp only [List.append_cancel_left_eq, List.cons.injEq, Assignment.mk.injEq] at h2
      omega

/-- Boot state for the C4 counterexample: one car, one shop, empty schedule. -/
def c4st0 : ScheduleState := ⟨⟨[⟨1, "unscheduled"⟩], [⟨1, "S", 5⟩], [], 1⟩, [], []⟩

/-- The state right after `assign(car 1, shop 1, month 600)` in `c4st0`. -/
def c4st1 : ScheduleState :=
  match assign c4st0 1 1 ⟨600, 1⟩ with
  | .ok (s, _) => s
  | .error _ => c4st0

/-- C4 counterexample: after a successful assign, undo and redo both succeed,
but redo re-creates the row under a fresh id (2 instead of 1), so the exact
prior Assignment is not restored and the post-redo state differs from the
pre-undo state — the round trip of the claim fails at assignment identity. -/
theorem C4_claim_false :
    (assign c4st0 1 1 ⟨600, 1⟩).isOk = true ∧
    (undo c4st1).2.isOk = true ∧
    (redo (undo c4st1).1).2.isOk = true ∧
    (⟨1, 1, 1, ⟨600, 1⟩⟩ : Assignment) ∈ c4st1.db.assignments ∧
    (⟨1, 1, 1, ⟨600, 1⟩⟩ : Assignment) ∉ (redo (undo c4st1).1).1.db.assignments ∧
    (redo (undo c4st1).1).1 ≠ c4st1 := by
  decide

/-- Witness for C4 amended at the concrete boot state `c4st0`. -/
theorem C4_undo_redo_witness :
    ∃ st1 res, assign c4st0 1 1 ⟨600, 1⟩ = .ok (st1, res) ∧
      res.assignment.id = c4st0.db.nextAssignmentId ∧
      (undo st1).2 = .ok () ∧
      (undo st1).1.db.assignments = c4st0.db.assignments ∧
      findCar (undo st1).1.db 1 =
        some { (⟨1, "unscheduled"⟩ : Car) with status :=
          if (countByCar c4st0.db 1 = 0) then "unscheduled" else "scheduled" } ∧
      (redo (undo st1).1).2 = .ok () ∧
      (redo (undo st1).1).1.db.assignments =
        c4st0.db.assignments ++ [⟨c4st0.db.nextAssignmentId + 1, 1, 1, ⟨600, 1⟩⟩] ∧
      findCar (redo (undo st1).1).1.db 1 =
        some { (⟨1, "unscheduled"⟩ : Car) with status := "scheduled" } ∧
      res.assignment ∉ (redo (undo st1).1).1.db.assignments ∧
      (redo (undo st1).1).1.db ≠ st1.db :=
  C4_undo_redo c4st0 1 1 ⟨600, 1⟩ ⟨1, "unscheduled"⟩ ⟨1, "S", 5⟩
    (by decide) (by decide) rfl rfl rfl (by simp [c4st0])

end C4

section C5C6

/-- Shape of a successful `assignmentCreate`: the row is appended and matches
the requested car and month. -/
theorem assignmentCreate_ok_shape (db : DB) (c s : Nat) (m : JDate)
    (db1 : DB) (a : Assignment) (h : assignmentCreate db c s m = .ok (db1, a)) :
    db1.assignments = db.assignments ++ [a] ∧ a.carId = c ∧ a.month = m := by
  unfold assignmentCreate at h
  split at h
  · exact absurd h (by simp)
  · split at h
    · exact absurd h (by simp)
    · split at h
      · exact absurd h (by simp)
      · simp only [Except.ok.injEq, Prod.mk.injEq] at h
        obtain ⟨h1, h2⟩ := h
        subst h2
        rw [← h1]
        exact ⟨rfl, rfl, rfl⟩

/-- The apply loop only appends assignments. -/
theorem applyLoop_mono (ts : List ScenarioAssignment) (db : DB) (acc : List Assignment)
    (db1 : DB) (created : List Assignment)
    (h : applyLoop db ts acc = .ok (db1, created)) :
    ∃ extra, db1.assignments = db.assignments ++ extra := by
  induction ts generalizing db acc with
  | nil =>
    unfold applyLoop at h
    simp only [Except.ok.injEq, Prod.mk.injEq] at h
    exact ⟨[], by rw [← h.1, List.append_nil]⟩
  | cons t rest ih =>
    unfold applyLoop at h
    cases hf : findByCarMonth db t.carId t.month with
    | some a =>
      rw [hf] at h
      exact ih db acc h
    | none =>
      rw [hf] at h
      cases hc : assignmentCreate db t.carId t.shopId t.month with
      | error e => rw [hc] at h; exact absurd h (by simp)
      | ok p =>
        obtain ⟨dbn, a⟩ := p
        rw [hc] at h
        obtain ⟨extra, hextra⟩ := ih _ _ h
        obtain ⟨hshape, _, _⟩ := assignmentCreate_ok_shape db t.carId t.shopId t.month dbn a hc
        refine ⟨[a] ++ extra, ?_⟩
        rw [hextra, setCarStatus_assignments, hshape, List.append_assoc]

/-- A `(carId, month)` pair present in a store stays present after rows are
appended. -/
theorem findByCarMonth_isSome_of_append (db1 db2 : DB) (c : Nat) (m : JDate)
    (extra : List Assignment)
    (happ : db2.assignments = db1.assignments ++ extra)
    (h : (findByCarMonth db1 c m).isSome = true) :
    (findByCarMonth db2 c m).isSome = true := by
  unfold findByCarMonth at h ⊢
  rw [happ, List.find?_append]
  cases hf : db1.assignments.find? (fun a => a.carId == c && a.month == m) with
  | none => rw [hf] at h; simp at h
  | some a => simp [hf]

/-- After a successful apply loop, every processed tuple has a matching
assignment in the resulting store. -/
theorem applyLoop_all_present (ts : List ScenarioAssignment) (db : DB) (acc : List Assignment)
    (db1 : DB) (created : List Assignment)
    (h : applyLoop db ts acc = .ok (db1, created)) :
    ∀ t ∈ ts, (findByCarMonth db1 t.carId t.month).isSome = true := by
  induction ts generalizing db acc with
  | nil => simp
  | cons t rest ih =>
    intro x hx
    unfold applyLoop at h
    cases hf : findByCarMonth db t.carId t.month with
    | some a =>
      rw [hf] at h
      rcases List.mem_cons.mp hx with hx | hx
      · subst hx
        obtain ⟨extra, hextra⟩ := applyLoop_mono rest db acc db1 created h
        exact findByCarMonth_isSome_of_append db db1 x.carId x.month extra hextra
          (by rw [hf]; rfl)
      · exact ih db acc h x hx
    | none =>
      rw [hf] at h
      cases hc : assignmentCreate db t.carId t.shopId t.month with
      | error e => rw [hc] at h; exact absurd h (by simp)
      | ok p =>
        obtain ⟨dbn, a⟩ := p
        rw [hc] at h
        rcases List.mem_cons.mp hx with hx | hx
        · subst hx
          obtain ⟨hshape, hac, ham⟩ := assignmentCreate_ok_shape db x.carId x.shopId x.month dbn a hc
          obtain ⟨extra, hextra⟩ := applyLoop_mono rest _ _ db1 created h
          apply findByCarMonth_isSome_of_append (setCarStatus dbn x.carId "scheduled") db1
            x.carId x.month extra hextra
          unfold findByCarMonth
          rw [setCarStatus_assignments, hshape, List.find?_append]
          have hmatch : (fun y => y.carId == x.carId && y.month == x.month) a = true := by
            simp [hac, ham]
          cases hl : db.assignments.find? (fun y => y.carId == x.carId && y.month == x.month) with
          | none => simp [hl, List.find?, hmatch]
          | some b => simp [hl]
        · exact ih _ _ h x hx

/-- When every tuple already has a matching assignment, the apply loop skips
them all: no row is created and the store is unchanged. -/
theorem applyLoop_skip_all (ts : List ScenarioAssignment) (db : DB) (acc : List Assignment)
    (h : ∀ t ∈ ts, (findByCarMonth db t.carId t.month).isSome = true) :
    applyLoop db ts acc = .ok (db, acc) := by
  induction ts generalizing acc with
  | nil => rfl
  | cons t rest ih =>
    unfold applyLoop
    obtain ⟨a, ha⟩ := Option.isSome_iff_exists.mp (h t (List.mem_cons_self t rest))
    rw [ha]
    exact ih acc (fun x hx => h x (List.mem_cons_of_mem t hx))

/-- C5: apply is idempotent — after a successful apply of a scenario, a
second apply on the unchanged ledger silently skips every tuple as success:
it creates zero new assignments, changes nothing, and reports no error. -/
theorem C5_apply_idempotent (db : DB) (ts : List ScenarioAssignment)
    (db1 : DB) (created : List Assignment)
    (h : applyScenario db ts = .ok (db1, created)) :
    applyScenario db1 ts = .ok (db1, []) :=
  applyLoop_skip_all ts db1 [] (applyLoop_all_present ts db [] db1 created h)

/-- Witness for C5: one tuple applied to an empty schedule, then re-applied
on the resulting store. -/
theorem C5_apply_idempotent_witness :
    applyScenario ⟨[⟨1, "scheduled"⟩], [⟨1, "S", 2⟩], [⟨1, 1, 1, ⟨600, 1⟩⟩], 2⟩
      [⟨1, 1, ⟨600, 1⟩⟩] =
      .ok (⟨[⟨1, "scheduled"⟩], [⟨1, "S", 2⟩], [⟨1, 1, 1, ⟨600, 1⟩⟩], 2⟩, []) :=
  C5_apply_idempotent ⟨[⟨1, "unscheduled"⟩], [⟨1, "S", 2⟩], [], 1⟩ [⟨1, 1, ⟨600, 1⟩⟩]
    ⟨[⟨1, "scheduled"⟩], [⟨1, "S", 2⟩], [⟨1, 1, 1, ⟨600, 1⟩⟩], 2⟩ [⟨1, 1, 1, ⟨600, 1⟩⟩]
    (by rfl)

/-- C6: apply is all-or-nothing — `prisma.$transaction` commits the new store
only when the whole loop succeeds, so when any insertion fails for a reason
other than pre-existing duplication (duplicates are skipped, never failures),
the route leaves the store exactly as it was: no assignment and no work-item
status change from the call persists, and the underlying cause is surfaced. -/
theorem C6_apply_atomic (db : DB) (ts : List ScenarioAssignment) (e : String)
    (h : applyScenario db ts = .error e) :
    applyRoute db ts = (db, .error e) := by
  unfold applyRoute
  rw [h]

/-- Witness for C6: a two-tuple scenario whose first insert succeeds inside
the transaction and whose second hits a missing car; the committed store is
unchanged — the first row did not persist. -/
theorem C6_apply_atomic_witness :
    applyRoute ⟨[⟨1, "unscheduled"⟩], [⟨1, "S", 2⟩], [], 1⟩
      [⟨1, 1, ⟨600, 1⟩⟩, ⟨2, 1, ⟨600, 1⟩⟩] =
      (⟨[⟨1, "unscheduled"⟩], [⟨1, "S", 2⟩], [], 1⟩, .error "FK violation: carId") :=
  C6_apply_atomic ⟨[⟨1, "unscheduled"⟩], [⟨1, "S", 2⟩], [], 1⟩
    [⟨1, 1, ⟨600, 1⟩⟩, ⟨2, 1, ⟨600, 1⟩⟩] "FK violation: carId" (by rfl)

end C5C6

section C9

/-- Every month has at least 28 days. -/
theorem daysInMonth_ge (ym : Nat) : 28 ≤ daysInMonth ym := by
  unfold daysInMonth
  dsimp only
  split
  · split <;> omega
  · split <;> omega

/-- JavaScript `setMonth` never rolls over when the day of month is at most 28. -/
theorem jsSetMonth_of_day_le (d : JDate) (t : Nat) (h : d.day ≤ 28) :
    jsSetMonth d t = ⟨t, d.day⟩ := by
  unfold jsSetMonth
  rw [if_pos (Nat.le_trans h (daysInMonth_ge t))]

/-- Closed form of the projection loop when the day does not roll over: the
cells cover the `n` months after the start, each built by `forecastCell` from
the same average. -/
theorem forecastCells_closed (shop : Shop) (avg : ℚ) (n : Nat) (ym day : Nat)
    (h : day ≤ 28) :
    forecastCells shop avg n ⟨ym, day⟩ =
      (List.range n).map (fun i => forecastCell shop avg (ym + i + 1)) := by
  induction n generalizing ym with
  | zero => rfl
  | succ k ih =>
    unfold forecastCells
    rw [jsSetMonth_of_day_le ⟨ym, day⟩ (ym + 1) h]
    dsimp only
    rw [ih (ym + 1)]
    rw [List.range_succ_eq_map, List.map_cons, List.map_map]
    congr 1
    apply List.map_congr_left
    intro i hi
    simp only [Function.comp]
    congr 1
    omega

/-- The closed form of the projection loop, stated over a date. -/
theorem forecastCells_closed_jd (shop : Shop) (avg : ℚ) (n : Nat) (d : JDate)
    (h : d.day ≤ 28) :
    forecastCells shop avg n d =
      (List.range n).map (fun i => forecastCell shop avg (d.ym + i + 1)) := by
  obtain ⟨ym, day⟩ := d
  exact forecastCells_closed shop avg n ym day h

/-- C9 amended: for each shop the forecast average is the history total
divided by the number of distinct active months, over the window of all
assignments from six months before the current date onward with no upper
bound (so future months count), and is 0 without history; and, when the
current day of month is at most 28 so that JavaScript setMonth does not roll
over, the route emits exactly `months` cells for the consecutive periods
after the current one, every cell carrying the same rounded average with no
growth or decay. -/
theorem C9_forecast_projection (db : DB) (now : JDate) (months : Nat) (shop : Shop)
    (h : now.day ≤ 28) :
    forecast db now months = db.shops.map (forecastShop db now months) ∧
    (forecastShop db now months shop).avgMonthlyAssignments =
      round2 (shopWindowAvg db now shop.id) ∧
    (forecastShop db now months shop).forecast =
      (List.range months).map
        (fun i => forecastCell shop (shopWindowAvg db now shop.id) (now.ym + i + 1)) ∧
    (∀ c ∈ (forecastShop db now months shop).forecast,
      c.projected = jsRound (shopWindowAvg db now shop.id)) ∧
    (shopHist db now shop.id = [] → shopWindowAvg db now shop.id = 0) := by
  have hclosed : (forecastShop db now months shop).forecast =
      (List.range months).map
        (fun i => forecastCell shop (shopWindowAvg db now shop.id) (now.ym + i + 1)) :=
    forecastCells_closed_jd shop _ months now h
  refine ⟨rfl, rfl, hclosed, ?_, ?_⟩
  · intro c hc
    rw [hclosed] at hc
    obtain ⟨i, hi, rfl⟩ := List.mem_map.mp hc
    rfl
  · intro hemp
    unfold shopWindowAvg
    rw [hemp]
    simp

/-- Witness for C9 amended at a concrete store with one shop and no history. -/
theorem C9_forecast_projection_witness :
    forecast ⟨[], [⟨1, "S", 10⟩], [], 1⟩ ⟨600, 1⟩ 6 =
      (⟨[], [⟨1, "S", 10⟩], [], 1⟩ : DB).shops.map
        (forecastShop ⟨[], [⟨1, "S", 10⟩], [], 1⟩ ⟨600, 1⟩ 6) ∧
    (forecastShop ⟨[], [⟨1, "S", 10⟩], [], 1⟩ ⟨600, 1⟩ 6 ⟨1, "S", 10⟩).avgMonthlyAssignments =
      round2 (shopWindowAvg ⟨[], [⟨1, "S", 10⟩], [], 1⟩ ⟨600, 1⟩ 1) ∧
    (forecastShop ⟨[], [⟨1, "S", 10⟩], [], 1⟩ ⟨600, 1⟩ 6 ⟨1, "S", 10⟩).forecast =
      (List.range 6).map
        (fun i => forecastCell ⟨1, "S", 10⟩
          (shopWindowAvg ⟨[], [⟨1, "S", 10⟩], [], 1⟩ ⟨600, 1⟩ 1) (600 + i + 1)) ∧
    (∀ c ∈ (forecastShop ⟨[], [⟨1, "S", 10⟩], [], 1⟩ ⟨600, 1⟩ 6 ⟨1, "S", 10⟩).forecast,
      c.projected = jsRound (shopWindowAvg ⟨[], [⟨1, "S", 10⟩], [], 1⟩ ⟨600, 1⟩ 1)) ∧
    (shopHist ⟨[], [⟨1, "S", 10⟩], [], 1⟩ ⟨600, 1⟩ 1 = [] →
      shopWindowAvg ⟨[], [⟨1, "S", 10⟩], [], 1⟩ ⟨600, 1⟩ 1 = 0) :=
  C9_forecast_projection ⟨[], [⟨1, "S", 10⟩], [], 1⟩ ⟨600, 1⟩ 6 ⟨1, "S", 10⟩ (by decide)

/-- A store whose single assignment sits 24 months in the future: inside the
source window (which has no upper bound), outside any trailing window ending
at the current date. -/
def c9db : DB := ⟨[], [⟨1, "S", 10⟩], [⟨1, 1, 1, ⟨648, 1⟩⟩], 2⟩

/-- C9 counterexample: with one assignment dated 24 months in the future, the
forecast reports an average of 1, because the source window has no upper
bound, while the trailing-window formula of the claim (`specTrailingAverage`,
modelled from the spec) gives 0. -/
theorem C9_claim_false :
    ((forecast c9db ⟨624, 1⟩ 6).map (fun e => e.avgMonthlyAssignments) = [1]) ∧
    specTrailingAverage c9db ⟨624, 1⟩ 1 = 0 ∧
    (1 : ℚ) ≠ round2 (specTrailingAverage c9db ⟨624, 1⟩ 1) := by
  have h1 : (shopHist c9db ⟨624, 1⟩ 1).length = 1 := by decide
  have h2 : ((shopHist c9db ⟨624, 1⟩ 1).map (fun a => a.month.ym)).dedup.length = 1 := by decide
  have havg : shopWindowAvg c9db ⟨624, 1⟩ 1 = 1 := by
    unfold shopWindowAvg
    rw [h1, h2]
    norm_num
  have hspec : specTrailingAverage c9db ⟨624, 1⟩ 1 = 0 := by
    have h3 : specTrailingHist c9db ⟨624, 1⟩ 1 = [] := by decide
    unfold specTrailingAverage
    rw [h3]
    simp
  refine ⟨?_, hspec, ?_⟩
  · show [(forecastShop c9db ⟨624, 1⟩ 6 ⟨1, "S", 10⟩).avgMonthlyAssignments] = [1]
    have hfield : (forecastShop c9db ⟨624, 1⟩ 6 ⟨1, "S", 10⟩).avgMonthlyAssignments =
        round2 (shopWindowAvg c9db ⟨624, 1⟩ 1) := rfl
    rw [hfield, havg, show (1 : ℚ) = ((1 : Nat) : ℚ) by norm_num, round2_natCast]
  · rw [hspec]
    norm_num [round2, jsRound]

end C9

section C10

/-- C10: evaluate returns exactly one per-resource entry for each shop of
the store, in order; a shop touched by no committed and no proposed
assignment (with the positive capacity the data model guarantees) is
reported with totalAssigned 0, overload 0, utilizationPercent 0 and status
green; and with zero shops the aggregate fitScore is 0 rather than a
division error. -/
theorem C10_every_resource (db : DB) (proposed : List ScenarioAssignment) (now : JDate) :
    ((evaluate db proposed now).shops.map (fun r => r.shopId) = db.shops.map (fun s => s.id)) ∧
    (∀ shop ∈ db.shops,
      (∀ a ∈ db.assignments, a.shopId ≠ shop.id) →
      (∀ p ∈ proposed, p.shopId ≠ shop.id) →
      0 < shop.capacity →
      evalShop db proposed now shop =
        { shopId := shop.id, shopName := shop.name, capacity := shop.capacity,
          currentAssigned := 0, scenarioAssigned := 0, totalAssigned := 0,
          utilizationPercent := 0, status := .green, overload := 0,
          earliestSlot := (jsSetMonth now (now.ym + 1)).ym } ∧
      evalShop db proposed now shop ∈ (evaluate db proposed now).shops) ∧
    (db.shops = [] → (evaluate db proposed now).fitScore = 0) := by
  refine ⟨?_, ?_, ?_⟩
  · show (db.shops.map (evalShop db proposed now)).map (fun r => r.shopId) = _
    rw [List.map_map]
    apply List.map_congr_left
    intro s hs
    rfl
  · intro shop hmem h1 h2 hcap
    have hfa : db.assignments.filter (fun a => a.shopId == shop.id) = [] :=
      List.filter_eq_nil_iff.mpr (fun a ha => by simpa using h1 a ha)
    have hfp : proposed.filter (fun p => p.shopId == shop.id) = [] :=
      List.filter_eq_nil_iff.mpr (fun p hp => by simpa using h2 p hp)
    have htally : monthlyTally db proposed shop.id = [] := by
      unfold monthlyTally
      rw [hfa, hfp]
      rfl
    have hscanA : (scanTally shop.capacity ([] : List (Nat × Nat × Nat))).1 = 0 := rfl
    have hscanB : (scanTally shop.capacity ([] : List (Nat × Nat × Nat))).2.1 = 0 := rfl
    have hscanC : (scanTally shop.capacity ([] : List (Nat × Nat × Nat))).2.2 = none := rfl
    have hutil : round2 (((0 : Nat) : ℚ) / (shop.capacity : ℚ) * 100) = 0 := by
      rw [show ((0 : Nat) : ℚ) = 0 by norm_num, zero_div, zero_mul]
      unfold round2 jsRound
      norm_num
    have hstat : statusOf 0 shop.capacity = Status.green := by
      have hc2 : ¬ (((0 : Nat) : ℚ) / (shop.capacity : ℚ) * 100 ≥ 80) := by
        rw [show ((0 : Nat) : ℚ) = 0 by norm_num, zero_div, zero_mul]
        norm_num
      unfold statusOf
      rw [if_neg (by omega), if_neg hc2]
    constructor
    · unfold evalShop
      rw [htally, hfa, hfp]
      simp only [hscanA, hscanB, hscanC, List.length_nil, hutil, hstat]
    · show _ ∈ db.shops.map (evalShop db proposed now)
      exact List.mem_map_of_mem (evalShop db proposed now) hmem
  · intro hempty
    unfold evaluate
    rw [hempty]
    simp only [List.map_nil, List.filter_nil, List.length_nil, gt_iff_lt, Nat.lt_irrefl,
      if_false]
    unfold round2 jsRound
    norm_num

/-- Witness for C10: one untouched shop of capacity 10, and the empty store
for the fitScore guard. -/
theorem C10_every_resource_witness :
    ((evaluate ⟨[], [⟨1, "S", 10⟩], [], 1⟩ [] ⟨600, 1⟩).shops.map (fun r => r.shopId) =
      (⟨[], [⟨1, "S", 10⟩], [], 1⟩ : DB).shops.map (fun s => s.id)) ∧
    (evalShop ⟨[], [⟨1, "S", 10⟩], [], 1⟩ [] ⟨600, 1⟩ ⟨1, "S", 10⟩ =
      { shopId := 1, shopName := "S", capacity := 10,
        currentAssigned := 0, scenarioAssigned := 0, totalAssigned := 0,
        utilizationPercent := 0, status := .green, overload := 0,
        earliestSlot := 601 } ∧
      evalShop ⟨[], [⟨1, "S", 10⟩], [], 1⟩ [] ⟨600, 1⟩ ⟨1, "S", 10⟩ ∈
        (evaluate ⟨[], [⟨1, "S", 10⟩], [], 1⟩ [] ⟨600, 1⟩).shops) ∧
    ((⟨[], [], [], 1⟩ : DB).shops = [] → (evaluate ⟨[], [], [], 1⟩ [] ⟨600, 1⟩).fitScore = 0) :=
  ⟨(C10_every_resource ⟨[], [⟨1, "S", 10⟩], [], 1⟩ [] ⟨600, 1⟩).1,
   (C10_every_resource ⟨[], [⟨1, "S", 10⟩], [], 1⟩ [] ⟨600, 1⟩).2.1 ⟨1, "S", 10⟩
     (by decide) (by simp) (by simp) (by decide),
   (C10_every_resource ⟨[], [], [], 1⟩ [] ⟨600, 1⟩).2.2⟩

end C10





end Chronos
